import Mathlib

/-!
Shallow embedding of the Solana Anchor program `programs/bridge/src/lib.rs`
(a two-chain asset bridge: `initialize`, `lock`, `release`).

Modelling conventions:
* `Pubkey` is an opaque identity, modelled as `Nat`.
* `u64` fields are `Nat`; the program's `checked_add`/`checked_sub` are modelled
  by explicit comparisons against `U64MOD = 2 ^ 64`.  Lamport balances are `Nat`:
  the Solana runtime conserves the total lamport supply below `2 ^ 64`, so the
  `u64` credit can never wrap and no claim concerns it.
* Anchor validates the accounts of an instruction, in declaration order of the
  `#[derive(Accounts)]` struct, before the handler body runs:
  - an `Account<T>` that does not exist fails deserialization
    (`accountNotInitialized`);
  - a `constraint = ... @ Error` failure returns that error (`invalidAdmin`);
  - an `#[account(init, ...)]` account is created via a system-program CPI,
    which fails when an account already exists at the derived address
    (`accountAlreadyInUse`); a freshly created account is zero-initialized.
* A Solana instruction that returns an error aborts the whole transaction and
  every account write is rolled back; `runInitialize` / `runLock` /
  `runRelease` model this by returning the pre-state together with the error,
  while the `...Step` functions follow the handler code line by line.
-/

namespace Bridge

abbrev Pubkey := Nat

/-- `2 ^ 64`, the modulus of the Rust `u64` type. -/
def U64MOD : Nat := 18446744073709551616

/-- `BridgeState` account (`lib.rs`): `admin`, `total_locked`, `bump`. -/
structure BridgeState where
  admin : Pubkey
  total_locked : Nat
  bump : Nat
  deriving DecidableEq, Repr

/-- `ProcessedTransaction` account (`lib.rs`): per-`evm_tx_hash` release record. -/
structure ProcessedTransaction where
  is_processed : Bool
  evm_tx_hash : String
  amount : Nat
  recipient : Pubkey
  timestamp : Int
  deriving DecidableEq, Repr

/-- The events emitted via `emit!` in `lib.rs`. -/
inductive BridgeEvent where
  | lockEvent (source_address : Pubkey) (destination_address : String)
      (amount : Nat) (timestamp : Int)
  | releaseEvent (recipient : Pubkey) (amount : Nat) (evm_tx_hash : String)
      (timestamp : Int)
  deriving DecidableEq, Repr

/-- The `BridgeError` enum of `lib.rs`, extended with the runtime-level
failures an instruction can hit before its handler body runs (these are not
part of the program's custom enum). -/
inductive BridgeError where
  | invalidAmount
  | amountTooLarge
  | invalidDestinationAddress
  | mathOverflow
  | mathUnderflow
  | invalidAdmin
  | transactionAlreadyProcessed
  | insufficientBalance
  | accountNotInitialized
  | accountAlreadyInUse
  | insufficientFundsForTransfer
  deriving DecidableEq, Repr

/-- On-chain state touched by the program: the `bridge_state` singleton PDA,
the keyed collection of `ProcessedTransaction` PDAs (keyed by `evm_tx_hash`,
mirroring the seeds `[b"processed_tx", evm_tx_hash]`), the lamport balance of
every account, and the emitted event log. -/
structure Chain where
  bridgeState : Option BridgeState
  processed : List (String × ProcessedTransaction)
  balances : List (Pubkey × Nat)
  events : List BridgeEvent
  deriving DecidableEq, Repr

/-- Rust `destination_address.starts_with("0x")`: the first two characters of
the string are `'0'` then `'x'`.  (Rust compares bytes, but on the ASCII
strings at issue byte and character comparison coincide.) -/
def startsWith0x (s : String) : Bool := s.data.take 2 = ['0', 'x']

/-- Point lookup of a `ProcessedTransaction` PDA by its `evm_tx_hash` seed. -/
def findTx : String → List (String × ProcessedTransaction) → Option ProcessedTransaction
  | _, [] => none
  | h, (k, v) :: rest => if h = k then some v else findTx h rest

/-- Lamport balance of an account (absent accounts hold 0 lamports). -/
def getBal : List (Pubkey × Nat) → Pubkey → Nat
  | [], _ => 0
  | (k, v) :: rest, a => if a = k then v else getBal rest a

/-- Overwrite the lamport balance of an account. -/
def setBal : List (Pubkey × Nat) → Pubkey → Nat → List (Pubkey × Nat)
  | [], a, n => [(a, n)]
  | (k, v) :: rest, a, n => if a = k then (a, n) :: rest else (k, v) :: setBal rest a n

/-- The `initialize` instruction.  Anchor's `init` on `bridge_state` fails when
the singleton PDA already exists; otherwise the handler stores the supplied
`admin` and `total_locked = 0` (`lib.rs` lines 11-19). -/
def initializeStep (c : Chain) (admin : Pubkey) (bump : Nat) :
    Except BridgeError Chain :=
  match c.bridgeState with
  | some _ => .error .accountAlreadyInUse
  | none => .ok { c with bridgeState := some ⟨admin, 0, bump⟩ }

/-- The `lock` instruction (`lib.rs` lines 22-72).  Account validation for the
`Lock` struct: `bridge_state` must exist; the supplied custody account must
satisfy `admin.key() == bridge_state.admin` (else `InvalidAdmin`).  Handler:
amount and destination-shape checks, system-program transfer from `user` to
`admin`, checked increment of `total_locked`, `LockEvent`. -/
def lockStep (c : Chain) (user adminAcc : Pubkey) (amount : Nat)
    (destination_address : String) (now : Int) : Except BridgeError Chain :=
  match c.bridgeState with
  | none => .error .accountNotInitialized
  | some bs =>
    if adminAcc ≠ bs.admin then .error .invalidAdmin
    else if amount = 0 then .error .invalidAmount
    else if 1000000000 < amount then .error .amountTooLarge
    else if ¬ (startsWith0x destination_address ∧ destination_address.length = 42) then
      .error .invalidDestinationAddress
    else if getBal c.balances user < amount then .error .insufficientFundsForTransfer
    else
      let b1 := setBal c.balances user (getBal c.balances user - amount)
      let b2 := setBal b1 adminAcc (getBal b1 adminAcc + amount)
      if U64MOD ≤ bs.total_locked + amount then .error .mathOverflow
      else .ok { c with
        bridgeState := some { bs with total_locked := bs.total_locked + amount },
        balances := b2,
        events := c.events ++ [.lockEvent user destination_address amount now] }

/-- The `release` instruction (`lib.rs` lines 75-126).  Account validation for
the `Release` struct, in declaration order: `bridge_state` must exist; the
signer must satisfy `admin.key() == bridge_state.admin` (else `InvalidAdmin`);
`recipient` is an unconstrained mutable account; `processed_tx` is
`#[account(init, seeds = [b"processed_tx", evm_tx_hash], ...)]` — creating it
fails when a record for `evm_tx_hash` already exists, and a fresh record is
zero-initialized (`is_processed = false`).  Handler: amount checks, the
`!processed_tx.is_processed` require (on the zeroed fresh account), custody
balance check, manual lamport debit/credit, record fields, checked decrement
of `total_locked`, `ReleaseEvent`. -/
def releaseStep (c : Chain) (adminAcc recipientAcc : Pubkey) (amount : Nat)
    (evm_tx_hash : String) (recipient : Pubkey) (now : Int) :
    Except BridgeError Chain :=
  match c.bridgeState with
  | none => .error .accountNotInitialized
  | some bs =>
    if adminAcc ≠ bs.admin then .error .invalidAdmin
    else
      match findTx evm_tx_hash c.processed with
      | some _ => .error .accountAlreadyInUse
      | none =>
        let freshTx : ProcessedTransaction := ⟨false, "", 0, 0, 0⟩
        if amount = 0 then .error .invalidAmount
        else if 1000000000 < amount then .error .amountTooLarge
        else if freshTx.is_processed then .error .transactionAlreadyProcessed
        else if getBal c.balances adminAcc < amount then .error .insufficientBalance
        else
          let b1 := setBal c.balances adminAcc (getBal c.balances adminAcc - amount)
          let b2 := setBal b1 recipientAcc (getBal b1 recipientAcc + amount)
          let tx : ProcessedTransaction := ⟨true, evm_tx_hash, amount, recipient, now⟩
          if bs.total_locked < amount then .error .mathUnderflow
          else .ok { c with
            bridgeState := some { bs with total_locked := bs.total_locked - amount },
            processed := (evm_tx_hash, tx) :: c.processed,
            balances := b2,
            events := c.events ++ [.releaseEvent recipient amount evm_tx_hash now] }

/-- Transaction-level view of `initialize`: a failing instruction aborts the
transaction and every write is rolled back. -/
def runInitialize (c : Chain) (admin : Pubkey) (bump : Nat) :
    Chain × Option BridgeError :=
  match initializeStep c admin bump with
  | .ok c' => (c', none)
  | .error e => (c, some e)

/-- Transaction-level view of `lock` (rollback on error). -/
def runLock (c : Chain) (user adminAcc : Pubkey) (amount : Nat)
    (destination_address : String) (now : Int) : Chain × Option BridgeError :=
  match lockStep c user adminAcc amount destination_address now with
  | .ok c' => (c', none)
  | .error e => (c, some e)

/-- Transaction-level view of `release` (rollback on error). -/
def runRelease (c : Chain) (adminAcc recipientAcc : Pubkey) (amount : Nat)
    (evm_tx_hash : String) (recipient : Pubkey) (now : Int) :
    Chain × Option BridgeError :=
  match releaseStep c adminAcc recipientAcc amount evm_tx_hash recipient now with
  | .ok c' => (c', none)
  | .error e => (c, some e)

/-- An arbitrary invocation of one of the three instructions. -/
inductive Op where
  | opInitialize (admin : Pubkey) (bump : Nat)
  | opLock (user adminAcc : Pubkey) (amount : Nat) (dest : String) (now : Int)
  | opRelease (adminAcc recipientAcc : Pubkey) (amount : Nat) (hash : String)
      (recipient : Pubkey) (now : Int)

/-- Apply one instruction at the transaction level (failed instructions leave
the chain unchanged). -/
def applyOp (c : Chain) : Op → Chain
  | .opInitialize a b => (runInitialize c a b).1
  | .opLock u a amt d n => (runLock c u a amt d n).1
  | .opRelease a r amt h rec n => (runRelease c a r amt h rec n).1

/-- Arguments of one `lock` invocation, for reasoning about sequences. -/
structure LockArgs where
  user : Pubkey
  adminAcc : Pubkey
  amount : Nat
  dest : String
  now : Int

/-- Run a sequence of `lock` invocations, `none` as soon as one fails. -/
def runLockSeq : Chain → List LockArgs → Option Chain
  | c, [] => some c
  | c, a :: rest =>
    match lockStep c a.user a.adminAcc a.amount a.dest a.now with
    | .ok c' => runLockSeq c' rest
    | .error _ => none

/-! Concrete states used to exercise the model: the §8 scenario of the spec
(initialize with admin 7, user 1 locks 0.5 SOL towards a 42-character
destination, admin releases 0.5 SOL to account 2 for foreign tx "0xabc"). -/

/-- A well-shaped 42-character destination address. -/
def destA : String := "0x" ++ String.mk (List.replicate 40 'a')

/-- Genesis: no bridge state, user 1 holds 5 SOL. -/
def demo0 : Chain := ⟨none, [], [(1, 5000000000)], []⟩

/-- After `initialize(admin = 7)`. -/
def demo1 : Chain := (runInitialize demo0 7 255).1

/-- After user 1 locks 0.5 SOL. -/
def demo2 : Chain := (runLock demo1 1 7 500000000 destA 100).1

/-- After admin 7 releases 0.5 SOL to account 2 for foreign tx "0xabc". -/
def demo3 : Chain := (runRelease demo2 7 2 500000000 "0xabc" 2 200).1

/-- A state where custody (admin 7) holds 10 lamports of its own while
`total_locked = 0`: releasing from it exercises the checked subtraction. -/
def demoUnder : Chain := ⟨some ⟨7, 0, 255⟩, [], [(7, 10)], []⟩

/-- A state whose ledger sits at the `u64` maximum: one more locked lamport
overflows the checked addition. -/
def demoFull : Chain := ⟨some ⟨7, 18446744073709551615, 255⟩, [], [(1, 5)], []⟩

/-- Two lock invocations by user 1 (0.5 SOL, then 200 lamports). -/
def demoLocks : List LockArgs := [⟨1, 7, 500000000, destA, 100⟩, ⟨1, 7, 200, destA, 101⟩]

/-- The state after successfully running `demoLocks` from `demo1`. -/
def demoLockedTwice : Chain := (runLockSeq demo1 demoLocks).getD demo0

/-- The state after a release on `demo2` whose credited account (2) differs
from its audited `recipient` argument (9). -/
def demoAudit : Chain := (runRelease demo2 7 2 500000000 "0xabc" 9 200).1

/-! ### Association-list lemmas -/

theorem getBal_setBal_self (l : List (Pubkey × Nat)) (k : Pubkey) (v : Nat) :
    getBal (setBal l k v) k = v := by
  induction l with
  | nil => simp [getBal, setBal]
  | cons p rest ih =>
    obtain ⟨k', v'⟩ := p
    by_cases hk : k = k'
    · simp [setBal, getBal, hk]
    · simp [setBal, getBal, hk, ih]

theorem getBal_setBal_ne (l : List (Pubkey × Nat)) (k a : Pubkey) (v : Nat)
    (hne : a ≠ k) : getBal (setBal l k v) a = getBal l a := by
  induction l with
  | nil => simp [getBal, setBal, hne]
  | cons p rest ih =>
    obtain ⟨k', v'⟩ := p
    by_cases hk : k = k'
    · subst hk
      simp [setBal, getBal, hne]
    · by_cases ha : a = k'
      · simp [setBal, getBal, hk, ha]
      · simp [setBal, getBal, hk, ha, ih]

theorem findTx_cons (h k : String) (tx : ProcessedTransaction)
    (l : List (String × ProcessedTransaction)) :
    findTx h ((k, tx) :: l) = if h = k then some tx else findTx h l := rfl

/-! ### Characterization of successful instructions -/

/-- Everything a successful `lock` implies: all guards passed and the
post-state is the debited/credited balance list, the incremented ledger and
the appended `LockEvent`. -/
theorem lockStep_ok_elim {c : Chain} {u a : Pubkey} {amt : Nat} {d : String}
    {n : Int} {c' : Chain} (h : lockStep c u a amt d n = .ok c') :
    ∃ bs, c.bridgeState = some bs ∧ a = bs.admin ∧ amt ≠ 0 ∧ amt ≤ 1000000000 ∧
      startsWith0x d ∧ d.length = 42 ∧ amt ≤ getBal c.balances u ∧
      bs.total_locked + amt < U64MOD ∧
      c' = { c with
        bridgeState := some { bs with total_locked := bs.total_locked + amt },
        balances := setBal (setBal c.balances u (getBal c.balances u - amt)) a
          (getBal (setBal c.balances u (getBal c.balances u - amt)) a + amt),
        events := c.events ++ [.lockEvent u d amt n] } := by
  simp only [lockStep] at h
  split at h
  · exact Except.noConfusion h
  · rename_i bs hbs
    split at h
    · exact Except.noConfusion h
    · rename_i hadmin
      split at h
      · exact Except.noConfusion h
      · rename_i hzero
        split at h
        · exact Except.noConfusion h
        · rename_i hlarge
          split at h
          · exact Except.noConfusion h
          · rename_i hdest
            split at h
            · exact Except.noConfusion h
            · rename_i hbal
              split at h
              · exact Except.noConfusion h
              · rename_i hov
                injection h with h
                subst h
                rw [not_not] at hdest
                rw [not_not] at hadmin
                exact ⟨bs, hbs, hadmin, hzero, by omega, hdest.1, hdest.2,
                  by omega, by omega, rfl⟩

/-- Everything a successful `release` implies: all guards passed (in
particular no `ProcessedTransaction` existed for this `evm_tx_hash`) and the
post-state carries the new record, the moved lamports, the decremented ledger
and the appended `ReleaseEvent`. -/
theorem releaseStep_ok_elim {c : Chain} {a r : Pubkey} {amt : Nat}
    {hash : String} {rec : Pubkey} {n : Int} {c' : Chain}
    (h : releaseStep c a r amt hash rec n = .ok c') :
    ∃ bs, c.bridgeState = some bs ∧ a = bs.admin ∧
      findTx hash c.processed = none ∧ amt ≠ 0 ∧ amt ≤ 1000000000 ∧
      amt ≤ getBal c.balances a ∧ amt ≤ bs.total_locked ∧
      c' = { c with
        bridgeState := some { bs with total_locked := bs.total_locked - amt },
        processed := (hash, ⟨true, hash, amt, rec, n⟩) :: c.processed,
        balances := setBal (setBal c.balances a (getBal c.balances a - amt)) r
          (getBal (setBal c.balances a (getBal c.balances a - amt)) r + amt),
        events := c.events ++ [.releaseEvent rec amt hash n] } := by
  simp only [releaseStep] at h
  split at h
  · exact Except.noConfusion h
  · rename_i bs hbs
    split at h
    · exact Except.noConfusion h
    · rename_i hadmin
      split at h
      · exact Except.noConfusion h
      · rename_i hdup
        split at h
        · exact Except.noConfusion h
        · rename_i hzero
          split at h
          · exact Except.noConfusion h
          · rename_i hlarge
            split at h
            · rename_i hfresh
              exact absurd hfresh (by simp)
            · rename_i hfresh
              split at h
              · exact Except.noConfusion h
              · rename_i hbal
                split at h
                · exact Except.noConfusion h
                · rename_i hunder
                  injection h with h
                  subst h
                  rw [not_not] at hadmin
                  exact ⟨bs, hbs, hadmin, hdup, hzero, by omega, by omega,
                    by omega, rfl⟩

/-! ### Preservation lemmas -/

theorem runInitialize_processed (c : Chain) (a : Pubkey) (b : Nat) :
    ((runInitialize c a b).1).processed = c.processed := by
  unfold runInitialize initializeStep
  cases hb : c.bridgeState <;> rfl

theorem runLock_processed (c : Chain) (u a : Pubkey) (amt : Nat) (d : String)
    (n : Int) : ((runLock c u a amt d n).1).processed = c.processed := by
  unfold runLock
  cases hstep : lockStep c u a amt d n with
  | error e => rfl
  | ok c1 =>
    obtain ⟨bs, _, _, _, _, _, _, _, _, hc1⟩ := lockStep_ok_elim hstep
    subst hc1
    rfl

theorem runRelease_findTx (c : Chain) (a r : Pubkey) (amt : Nat) (hash : String)
    (rec : Pubkey) (n : Int) (h : String) (tx : ProcessedTransaction)
    (hfind : findTx h c.processed = some tx) :
    findTx h ((runRelease c a r amt hash rec n).1).processed = some tx := by
  unfold runRelease
  cases hstep : releaseStep c a r amt hash rec n with
  | error e => exact hfind
  | ok c1 =>
    obtain ⟨bs, _, _, hdup, _, _, _, _, hc1⟩ := releaseStep_ok_elim hstep
    subst hc1
    have hne : h ≠ hash := by
      intro he
      rw [he, hdup] at hfind
      exact Option.noConfusion hfind
    show findTx h ((hash, ⟨true, hash, amt, rec, n⟩) :: c.processed) = some tx
    rw [findTx_cons, if_neg hne]
    exact hfind

theorem applyOp_findTx (c : Chain) (o : Op) (h : String)
    (tx : ProcessedTransaction) (hfind : findTx h c.processed = some tx) :
    findTx h (applyOp c o).processed = some tx := by
  cases o with
  | opInitialize a b =>
    show findTx h ((runInitialize c a b).1).processed = some tx
    rw [runInitialize_processed]
    exact hfind
  | opLock u a amt d n =>
    show findTx h ((runLock c u a amt d n).1).processed = some tx
    rw [runLock_processed]
    exact hfind
  | opRelease a r amt hash rec n => exact runRelease_findTx c a r amt hash rec n h tx hfind

theorem foldl_applyOp_findTx (ops : List Op) : ∀ (c : Chain) (h : String)
    (tx : ProcessedTransaction), findTx h c.processed = some tx →
    findTx h (ops.foldl applyOp c).processed = some tx := by
  induction ops with
  | nil => intro c h tx hf; exact hf
  | cons o rest ih => intro c h tx hf; exact ih _ _ _ (applyOp_findTx c o h tx hf)

theorem runLock_admin (c : Chain) (u a : Pubkey) (amt : Nat) (d : String)
    (n : Int) : ((runLock c u a amt d n).1).bridgeState.map BridgeState.admin
      = c.bridgeState.map BridgeState.admin := by
  unfold runLock
  cases hstep : lockStep c u a amt d n with
  | error e => rfl
  | ok c1 =>
    obtain ⟨bs, hbs, _, _, _, _, _, _, _, hc1⟩ := lockStep_ok_elim hstep
    subst hc1
    simp [hbs]

theorem runRelease_admin (c : Chain) (a r : Pubkey) (amt : Nat) (hash : String)
    (rec : Pubkey) (n : Int) :
    ((runRelease c a r amt hash rec n).1).bridgeState.map BridgeState.admin
      = c.bridgeState.map BridgeState.admin := by
  unfold runRelease
  cases hstep : releaseStep c a r amt hash rec n with
  | error e => rfl
  | ok c1 =>
    obtain ⟨bs, hbs, _, _, _, _, _, _, hc1⟩ := releaseStep_ok_elim hstep
    subst hc1
    simp [hbs]

/-- A successful run of a `lock` sequence adds exactly the sum of the amounts
to `total_locked` (and keeps the admin). -/
theorem runLockSeq_total (args : List LockArgs) : ∀ (c : Chain)
    (bs : BridgeState) (c' : Chain), c.bridgeState = some bs →
    runLockSeq c args = some c' →
    ∃ bs', c'.bridgeState = some bs' ∧ bs'.admin = bs.admin ∧
      bs'.total_locked = bs.total_locked + (args.map LockArgs.amount).sum := by
  induction args with
  | nil =>
    intro c bs c' hb hr
    rw [runLockSeq] at hr
    injection hr with hr
    subst hr
    exact ⟨bs, hb, rfl, by simp⟩
  | cons a rest ih =>
    intro c bs c' hb hr
    rw [runLockSeq] at hr
    cases hstep : lockStep c a.user a.adminAcc a.amount a.dest a.now with
    | error e =>
      rw [hstep] at hr
      exact Option.noConfusion hr
    | ok cmid =>
      rw [hstep] at hr
      obtain ⟨bs1, hbs1, _, _, _, _, _, _, _, hcmid⟩ := lockStep_ok_elim hstep
      rw [hb] at hbs1
      injection hbs1 with hbs1
      subst hbs1
      have hmid : cmid.bridgeState
          = some { bs with total_locked := bs.total_locked + a.amount } := by
        rw [hcmid]
      obtain ⟨bs', h1, h2, h3⟩ := ih cmid _ c' hmid hr
      refine ⟨bs', h1, by simpa using h2, ?_⟩
      simp only [List.map_cons, List.sum_cons]
      simp at h3
      omega

/-! ### Guard-path lemmas -/

theorem lockStep_wrongAdmin {c : Chain} {bs : BridgeState} {u a : Pubkey}
    {amt : Nat} {d : String} {n : Int} (hb : c.bridgeState = some bs)
    (ha : a ≠ bs.admin) : lockStep c u a amt d n = .error .invalidAdmin := by
  simp [lockStep, hb, ha]

theorem lockStep_zeroAmount {c : Chain} {bs : BridgeState} {u a : Pubkey}
    {d : String} {n : Int} (hb : c.bridgeState = some bs) (ha : a = bs.admin) :
    lockStep c u a 0 d n = .error .invalidAmount := by
  subst ha
  simp [lockStep, hb]

theorem lockStep_aboveCeiling {c : Chain} {bs : BridgeState} {u a : Pubkey}
    {d : String} {n : Int} (hb : c.bridgeState = some bs) (ha : a = bs.admin) :
    lockStep c u a 1000000001 d n = .error .amountTooLarge := by
  subst ha
  simp [lockStep, hb]

theorem lockStep_badDest {c : Chain} {bs : BridgeState} {u a : Pubkey}
    {amt : Nat} {d : String} {n : Int} (hb : c.bridgeState = some bs)
    (ha : a = bs.admin) (h0 : amt ≠ 0) (h1 : amt ≤ 1000000000)
    (hd : ¬ (startsWith0x d ∧ d.length = 42)) :
    lockStep c u a amt d n = .error .invalidDestinationAddress := by
  subst ha
  have h1' : ¬ (1000000000 < amt) := by omega
  simp only [lockStep, hb]
  rw [if_neg (by simp), if_neg h0, if_neg h1', if_pos hd]

theorem lockStep_overflow {c : Chain} {bs : BridgeState} {u a : Pubkey}
    {amt : Nat} {d : String} {n : Int} (hb : c.bridgeState = some bs)
    (ha : a = bs.admin) (h0 : amt ≠ 0) (h1 : amt ≤ 1000000000)
    (hd1 : startsWith0x d) (hd2 : d.length = 42)
    (hbal : amt ≤ getBal c.balances u)
    (hov : U64MOD ≤ bs.total_locked + amt) :
    lockStep c u a amt d n = .error .mathOverflow := by
  subst ha
  have h1' : ¬ (1000000000 < amt) := by omega
  have hbal' : ¬ (getBal c.balances u < amt) := by omega
  simp [lockStep, hb, h0, h1', hd1, hd2, hbal', hov]

theorem lockStep_success {c : Chain} {bs : BridgeState} {u a : Pubkey}
    {amt : Nat} {d : String} {n : Int} (hb : c.bridgeState = some bs)
    (ha : a = bs.admin) (h0 : amt ≠ 0) (h1 : amt ≤ 1000000000)
    (hd1 : startsWith0x d) (hd2 : d.length = 42)
    (hbal : amt ≤ getBal c.balances u)
    (hov : bs.total_locked + amt < U64MOD) :
    lockStep c u a amt d n = .ok { c with
      bridgeState := some { bs with total_locked := bs.total_locked + amt },
      balances := setBal (setBal c.balances u (getBal c.balances u - amt)) a
        (getBal (setBal c.balances u (getBal c.balances u - amt)) a + amt),
      events := c.events ++ [.lockEvent u d amt n] } := by
  subst ha
  have h1' : ¬ (1000000000 < amt) := by omega
  have hbal' : ¬ (getBal c.balances u < amt) := by omega
  have hov' : ¬ (U64MOD ≤ bs.total_locked + amt) := by omega
  simp [lockStep, hb, h0, h1', hd1, hd2, hbal', hov']

theorem releaseStep_wrongAdmin {c : Chain} {bs : BridgeState} {a r : Pubkey}
    {amt : Nat} {hash : String} {rec : Pubkey} {n : Int}
    (hb : c.bridgeState = some bs) (ha : a ≠ bs.admin) :
    releaseStep c a r amt hash rec n = .error .invalidAdmin := by
  simp [releaseStep, hb, ha]

theorem releaseStep_dup {c : Chain} {bs : BridgeState} {a r : Pubkey}
    {amt : Nat} {hash : String} {rec : Pubkey} {n : Int}
    {tx : ProcessedTransaction} (hb : c.bridgeState = some bs)
    (ha : a = bs.admin) (hdup : findTx hash c.processed = some tx) :
    releaseStep c a r amt hash rec n = .error .accountAlreadyInUse := by
  subst ha
  simp [releaseStep, hb, hdup]

theorem releaseStep_underflow {c : Chain} {bs : BridgeState} {a r : Pubkey}
    {amt : Nat} {hash : String} {rec : Pubkey} {n : Int}
    (hb : c.bridgeState = some bs) (ha : a = bs.admin)
    (hdup : findTx hash c.processed = none) (h0 : amt ≠ 0)
    (h1 : amt ≤ 1000000000) (hbal : amt ≤ getBal c.balances a)
    (hund : bs.total_locked < amt) :
    releaseStep c a r amt hash rec n = .error .mathUnderflow := by
  subst ha
  have h1' : ¬ (1000000000 < amt) := by omega
  have hbal' : ¬ (getBal c.balances bs.admin < amt) := by omega
  simp [releaseStep, hb, hdup, h0, h1', hbal', hund]

/-! ### Claim theorems -/

/-- C1, counterexample to the claim as stated.  After a successful release of
foreign tx "0xabc" (first conjunct), a second admin-signed release carrying
the same identifier fails — but with the account-creation failure of the
`init`-constrained `processed_tx` account, not with the program's
`TransactionAlreadyProcessed` error (which sits behind that `init` and is
unreachable). -/
theorem release_replay_counterexample :
    (runRelease demo2 7 2 500000000 "0xabc" 2 200).2 = none ∧
    (runRelease demo3 7 2 500000000 "0xabc" 2 300).2
      = some .accountAlreadyInUse ∧
    (runRelease demo3 7 2 500000000 "0xabc" 2 300).2
      ≠ some .transactionAlreadyProcessed :=
  ⟨by decide, by decide, by decide⟩

/-- C1 (amended): for a fixed `evm_tx_hash`, at most one release succeeds.
An admin-signed release finding an existing `ProcessedTransaction` record
fails with the `accountAlreadyInUse` account-creation failure, leaving the
whole chain state (custody and recipient balances, `total_locked`, the
record) unchanged; a successful release creates the record for its hash; and
every instruction preserves existing records, so all later attempts keep
failing. -/
theorem release_exactly_once :
    (∀ c bs a r amt hash rec n tx, c.bridgeState = some bs → a = bs.admin →
      findTx hash c.processed = some tx →
      runRelease c a r amt hash rec n = (c, some .accountAlreadyInUse)) ∧
    (∀ c a r amt hash rec n c', releaseStep c a r amt hash rec n = .ok c' →
      findTx hash c'.processed = some ⟨true, hash, amt, rec, n⟩) ∧
    (∀ (ops : List Op) (c : Chain) (hash : String) (tx : ProcessedTransaction),
      findTx hash c.processed = some tx →
      findTx hash (ops.foldl applyOp c).processed = some tx) := by
  refine ⟨?_, ?_, ?_⟩
  · intro c bs a r amt hash rec n tx hb ha hdup
    unfold runRelease
    rw [releaseStep_dup hb ha hdup]
  · intro c a r amt hash rec n c' h
    obtain ⟨bs, _, _, _, _, _, _, _, hc'⟩ := releaseStep_ok_elim h
    subst hc'
    show findTx hash ((hash, ⟨true, hash, amt, rec, n⟩) :: c.processed) = _
    rw [findTx_cons, if_pos rfl]
  · intro ops c hash tx hf
    exact foldl_applyOp_findTx ops c hash tx hf

/-- C2: a release that reaches the checked subtraction with
`total_locked < amount` (admin-signed, fresh hash, valid amount, sufficient
custody balance) aborts with `MathUnderflow` and the transaction rollback
leaves the whole chain state — balances, records, `total_locked` — exactly
as before. -/
theorem release_underflow_atomic (c : Chain) (bs : BridgeState) (a r : Pubkey)
    (amt : Nat) (hash : String) (rec : Pubkey) (n : Int)
    (hb : c.bridgeState = some bs) (ha : a = bs.admin)
    (hdup : findTx hash c.processed = none) (h0 : amt ≠ 0)
    (h1 : amt ≤ 1000000000) (hbal : amt ≤ getBal c.balances a)
    (hund : bs.total_locked < amt) :
    runRelease c a r amt hash rec n = (c, some .mathUnderflow) := by
  unfold runRelease
  rw [releaseStep_underflow hb ha hdup h0 h1 hbal hund]

/-- C3: each successful lock adds exactly its amount to `total_locked`
(checked addition); a sequence of successful locks from the initialized
ledger (`total_locked = 0`) leaves `total_locked` equal to the sum of the
amounts; and a lock whose checked addition would exceed the `u64` range
fails with `MathOverflow`, leaving the chain unchanged. -/
theorem lock_total_conservation :
    (∀ c u a amt d n c', lockStep c u a amt d n = .ok c' →
      ∃ bs, c.bridgeState = some bs ∧
        c'.bridgeState = some { bs with total_locked := bs.total_locked + amt }) ∧
    (∀ c bs args c', c.bridgeState = some bs → bs.total_locked = 0 →
      runLockSeq c args = some c' →
      ∃ bs', c'.bridgeState = some bs' ∧
        bs'.total_locked = (args.map LockArgs.amount).sum) ∧
    (∀ c bs u a amt d n, c.bridgeState = some bs → a = bs.admin → amt ≠ 0 →
      amt ≤ 1000000000 → startsWith0x d → d.length = 42 →
      amt ≤ getBal c.balances u → U64MOD ≤ bs.total_locked + amt →
      runLock c u a amt d n = (c, some .mathOverflow)) := by
  refine ⟨?_, ?_, ?_⟩
  · intro c u a amt d n c' h
    obtain ⟨bs, hbs, _, _, _, _, _, _, _, hc'⟩ := lockStep_ok_elim h
    subst hc'
    exact ⟨bs, hbs, rfl⟩
  · intro c bs args c' hb h0 hr
    obtain ⟨bs', h1, _, h3⟩ := runLockSeq_total args c bs c' hb hr
    exact ⟨bs', h1, by rw [h3, h0, Nat.zero_add]⟩
  · intro c bs u a amt d n hb ha h0 h1 hd1 hd2 hbal hov
    unfold runLock
    rw [lockStep_overflow hb ha h0 h1 hd1 hd2 hbal hov]

/-- C4: a successful release decrements `total_locked` by exactly the
released amount and never drives it below zero (the checked subtraction
guarantees `amount ≤ total_locked` on success); a release with
`amount > total_locked` never succeeds and leaves the chain unchanged; and
when such a release passes every earlier guard it fails precisely with
`MathUnderflow`. -/
theorem release_ledger_decrement :
    (∀ c a r amt hash rec n c', releaseStep c a r amt hash rec n = .ok c' →
      ∃ bs bs', c.bridgeState = some bs ∧ c'.bridgeState = some bs' ∧
        amt ≤ bs.total_locked ∧ bs'.total_locked + amt = bs.total_locked) ∧
    (∀ c bs a r amt hash rec n, c.bridgeState = some bs →
      bs.total_locked < amt →
      ∃ e, runRelease c a r amt hash rec n = (c, some e)) ∧
    (∀ c bs a r amt hash rec n, c.bridgeState = some bs → a = bs.admin →
      findTx hash c.processed = none → amt ≠ 0 → amt ≤ 1000000000 →
      amt ≤ getBal c.balances a → bs.total_locked < amt →
      runRelease c a r amt hash rec n = (c, some .mathUnderflow)) := by
  refine ⟨?_, ?_, ?_⟩
  · intro c a r amt hash rec n c' h
    obtain ⟨bs, hbs, _, _, _, _, _, hle, hc'⟩ := releaseStep_ok_elim h
    subst hc'
    refine ⟨bs, ⟨bs.admin, bs.total_locked - amt, bs.bump⟩, hbs, rfl, hle, ?_⟩
    show bs.total_locked - amt + amt = bs.total_locked
    omega
  · intro c bs a r amt hash rec n hb hund
    unfold runRelease
    cases hstep : releaseStep c a r amt hash rec n with
    | error e => exact ⟨e, rfl⟩
    | ok c1 =>
      obtain ⟨bs1, hbs1, _, _, _, _, _, hle, _⟩ := releaseStep_ok_elim hstep
      rw [hb] at hbs1
      injection hbs1 with hbs1
      subst hbs1
      omega
  · intro c bs a r amt hash rec n hb ha hdup h0 h1 hbal hund
    unfold runRelease
    rw [releaseStep_underflow hb ha hdup h0 h1 hbal hund]

/-- C5: a successful release credits the lamports to the `recipient` account
supplied in the account list (`r`), while the `ProcessedTransaction` record
and the `ReleaseEvent` store the separate `recipient` instruction argument
(`rec`); nothing ties the two together, and the second conjunct exhibits a
successful release whose audited recipient (9) differs from the account
actually credited (2). -/
theorem release_recipient_account_vs_argument :
    (∀ (c : Chain) (a r : Pubkey) (amt : Nat) (hash : String) (rec : Pubkey)
      (n : Int) (c' : Chain), releaseStep c a r amt hash rec n = .ok c' →
      r ≠ a →
      getBal c'.balances r = getBal c.balances r + amt ∧
      findTx hash c'.processed = some ⟨true, hash, amt, rec, n⟩ ∧
      c'.events = c.events ++ [.releaseEvent rec amt hash n]) ∧
    ((runRelease demo2 7 2 500000000 "0xabc" 9 200).2 = none ∧
     getBal (runRelease demo2 7 2 500000000 "0xabc" 9 200).1.balances 2
       = 500000000 ∧
     findTx "0xabc" (runRelease demo2 7 2 500000000 "0xabc" 9 200).1.processed
       = some ⟨true, "0xabc", 500000000, 9, 200⟩ ∧
     (2 : Pubkey) ≠ 9) := by
  constructor
  · intro c a r amt hash rec n c' h hra
    obtain ⟨bs, hbs, ha, hdup, h0, h1, hbal, hle, hc'⟩ := releaseStep_ok_elim h
    subst hc'
    refine ⟨?_, ?_, rfl⟩
    · show getBal (setBal (setBal c.balances a (getBal c.balances a - amt)) r
        (getBal (setBal c.balances a (getBal c.balances a - amt)) r + amt)) r
        = getBal c.balances r + amt
      rw [getBal_setBal_self, getBal_setBal_ne _ _ _ _ hra]
    · show findTx hash ((hash, ⟨true, hash, amt, rec, n⟩) :: c.processed) = _
      rw [findTx_cons, if_pos rfl]
  · exact ⟨by decide, by decide, by decide, by decide⟩

/-- C6: a release whose signing account is not the stored
`BridgeState.admin` fails with `InvalidAdmin` (the `Release` account
constraint), whatever the other arguments are, and the rollback leaves the
whole chain state unchanged. -/
theorem release_requires_admin (c : Chain) (bs : BridgeState) (a r : Pubkey)
    (amt : Nat) (hash : String) (rec : Pubkey) (n : Int)
    (hb : c.bridgeState = some bs) (ha : a ≠ bs.admin) :
    runRelease c a r amt hash rec n = (c, some .invalidAdmin) := by
  unfold runRelease
  rw [releaseStep_wrongAdmin hb ha]

/-- C7: `initialize` creates the bridge state with the supplied admin and
`total_locked = 0`, and no `lock` or `release` — successful or failed — ever
changes the stored admin identity. -/
theorem initialize_admin_immutable :
    (∀ (c : Chain) (adm : Pubkey) (b : Nat), c.bridgeState = none →
      runInitialize c adm b = ({ c with bridgeState := some ⟨adm, 0, b⟩ }, none)) ∧
    (∀ (c : Chain) (u a : Pubkey) (amt : Nat) (d : String) (n : Int),
      ((runLock c u a amt d n).1).bridgeState.map BridgeState.admin
        = c.bridgeState.map BridgeState.admin) ∧
    (∀ (c : Chain) (a r : Pubkey) (amt : Nat) (hash : String) (rec : Pubkey)
      (n : Int),
      ((runRelease c a r amt hash rec n).1).bridgeState.map BridgeState.admin
        = c.bridgeState.map BridgeState.admin) := by
  refine ⟨?_, runLock_admin, runRelease_admin⟩
  intro c adm b hb
  unfold runInitialize initializeStep
  rw [hb]

/-- C8: with the accounts correctly wired (bridge initialized, custody
account equal to the stored admin), a lock of amount 0 fails with
`InvalidAmount` and a lock of 1_000_000_001 — one above the fixed
1_000_000_000 ceiling — fails with `AmountTooLarge`; both leave the chain
unchanged and move no lamports. -/
theorem lock_amount_guards (c : Chain) (bs : BridgeState) (u a : Pubkey)
    (d : String) (n : Int) (hb : c.bridgeState = some bs)
    (ha : a = bs.admin) :
    runLock c u a 0 d n = (c, some .invalidAmount) ∧
    runLock c u a 1000000001 d n = (c, some .amountTooLarge) := by
  constructor
  · unfold runLock
    rw [lockStep_zeroAmount hb ha]
  · unfold runLock
    rw [lockStep_aboveCeiling hb ha]

/-- C9: the destination check is purely syntactic: a destination failing
`starts_with("0x") && len() == 42` makes lock fail with
`InvalidDestinationAddress` before any transfer or ledger change, and any
destination passing that shape check (with the remaining guards satisfied)
lets the lock succeed — no further validation of the address exists. -/
theorem lock_address_shape (c : Chain) (bs : BridgeState) (u a : Pubkey)
    (amt : Nat) (d : String) (n : Int) (hb : c.bridgeState = some bs)
    (ha : a = bs.admin) (h0 : amt ≠ 0) (h1 : amt ≤ 1000000000) :
    (¬ (startsWith0x d ∧ d.length = 42) →
      runLock c u a amt d n = (c, some .invalidDestinationAddress)) ∧
    (startsWith0x d → d.length = 42 → amt ≤ getBal c.balances u →
      bs.total_locked + amt < U64MOD → (runLock c u a amt d n).2 = none) := by
  constructor
  · intro hd
    unfold runLock
    rw [lockStep_badDest hb ha h0 h1 hd]
  · intro hd1 hd2 hbal hov
    unfold runLock
    rw [lockStep_success hb ha h0 h1 hd1 hd2 hbal hov]

/-- C10: a lock whose supplied custody account differs from the stored
`BridgeState.admin` fails with `InvalidAdmin` (the `Lock` account
constraint, a failure mode of lock beyond the spec's §4.2 list) and leaves
the chain unchanged. -/
theorem lock_requires_admin (c : Chain) (bs : BridgeState) (u a : Pubkey)
    (amt : Nat) (d : String) (n : Int) (hb : c.bridgeState = some bs)
    (ha : a ≠ bs.admin) :
    runLock c u a amt d n = (c, some .invalidAdmin) := by
  unfold runLock
  rw [lockStep_wrongAdmin hb ha]

/-! ### Witnesses: the claim theorems evaluated at concrete inputs -/

/-- C1 witness: replaying "0xabc" on `demo3` fails with the account-creation
failure and leaves the state untouched. -/
theorem release_exactly_once_witness :
    runRelease demo3 7 2 500000000 "0xabc" 2 300
      = (demo3, some BridgeError.accountAlreadyInUse) :=
  release_exactly_once.1 demo3 ⟨7, 0, 255⟩ 7 2 500000000 "0xabc" 2 300
    ⟨true, "0xabc", 500000000, 2, 200⟩ (by decide) rfl (by decide)

/-- C2 witness: releasing 5 lamports from custody holding 10 while
`total_locked = 0` fails with `MathUnderflow`, state unchanged. -/
theorem release_underflow_atomic_witness :
    runRelease demoUnder 7 2 5 "0xdead" 2 50
      = (demoUnder, some BridgeError.mathUnderflow) :=
  release_underflow_atomic demoUnder ⟨7, 0, 255⟩ 7 2 5 "0xdead" 2 50 rfl rfl
    rfl (by decide) (by decide) (by decide) (by decide)

/-- C3 witness: after the two successful locks of `demoLocks`,
`total_locked` equals the sum of the two amounts. -/
theorem lock_total_conservation_witness :
    ∃ bs', demoLockedTwice.bridgeState = some bs' ∧
      bs'.total_locked = (demoLocks.map LockArgs.amount).sum :=
  lock_total_conservation.2.1 demo1 ⟨7, 0, 255⟩ demoLocks demoLockedTwice
    (by decide) rfl (by decide)

/-- C4 witness: a release of 7 lamports against `total_locked = 0` (custody
balance 10 suffices) fails with `MathUnderflow`, ledger unchanged. -/
theorem release_ledger_decrement_witness :
    runRelease demoUnder 7 3 7 "0xbeef" 3 60
      = (demoUnder, some BridgeError.mathUnderflow) :=
  release_ledger_decrement.2.2 demoUnder ⟨7, 0, 255⟩ 7 3 7 "0xbeef" 3 60 rfl
    rfl rfl (by decide) (by decide) (by decide) (by decide)

/-- C5 witness: in the `demoAudit` release the credited account is 2 while
the stored audit recipient is 9. -/
theorem release_recipient_account_vs_argument_witness :
    getBal demoAudit.balances 2 = getBal demo2.balances 2 + 500000000 ∧
    findTx "0xabc" demoAudit.processed
      = some ⟨true, "0xabc", 500000000, 9, 200⟩ ∧
    demoAudit.events = demo2.events ++ [.releaseEvent 9 500000000 "0xabc" 200] :=
  release_recipient_account_vs_argument.1 demo2 7 2 500000000 "0xabc" 9 200
    demoAudit (by rfl) (by decide)

/-- C6 witness: account 8 (not the admin 7) cannot release. -/
theorem release_requires_admin_witness :
    runRelease demo1 8 2 5 "0xabc" 2 50 = (demo1, some BridgeError.invalidAdmin) :=
  release_requires_admin demo1 ⟨7, 0, 255⟩ 8 2 5 "0xabc" 2 50 (by decide)
    (by decide)

/-- C7 witness: initializing the genesis state installs admin 7 with
`total_locked = 0`. -/
theorem initialize_admin_immutable_witness :
    runInitialize demo0 7 255 = ({ demo0 with bridgeState := some ⟨7, 0, 255⟩ }, none) :=
  initialize_admin_immutable.1 demo0 7 255 rfl

/-- C8 witness: on the initialized chain, locking 0 fails `InvalidAmount`
and locking 1_000_000_001 fails `AmountTooLarge`. -/
theorem lock_amount_guards_witness :
    runLock demo1 1 7 0 destA 10 = (demo1, some BridgeError.invalidAmount) ∧
    runLock demo1 1 7 1000000001 destA 10
      = (demo1, some BridgeError.amountTooLarge) :=
  lock_amount_guards demo1 ⟨7, 0, 255⟩ 1 7 destA 10 (by decide) rfl

/-- C9 witness: the 7-character destination "0xshort" is rejected with
`InvalidDestinationAddress`, while the well-shaped `destA` lets the same
lock succeed. -/
theorem lock_address_shape_witness :
    runLock demo1 1 7 5 "0xshort" 10
      = (demo1, some BridgeError.invalidDestinationAddress) ∧
    (runLock demo1 1 7 5 destA 10).2 = none :=
  ⟨(lock_address_shape demo1 ⟨7, 0, 255⟩ 1 7 5 "0xshort" 10 (by decide) rfl
      (by decide) (by decide)).1 (by decide),
   (lock_address_shape demo1 ⟨7, 0, 255⟩ 1 7 5 destA 10 (by decide) rfl
      (by decide) (by decide)).2 (by decide) (by decide) (by decide) (by decide)⟩

/-- C10 witness: locking through custody account 8 (not the admin 7) fails
with `InvalidAdmin`. -/
theorem lock_requires_admin_witness :
    runLock demo1 1 8 5 destA 10 = (demo1, some BridgeError.invalidAdmin) :=
  lock_requires_admin demo1 ⟨7, 0, 255⟩ 1 8 5 destA 10 (by decide) (by decide)

end Bridge
